import Mathlib

/-!
Verification of the RAG pipeline's chunking, embedding-retry, retrieval and
text-normalization components, shallowly embedded from the Python sources
under `app/`.  Python machine behaviour is modelled as follows: strings are
`String` (lists of characters), Python `int` is `Int` (or `Nat` where the
source value is provably non-negative), `float` delays are `ℚ` (the source
only ever multiplies 1.0 by powers of two, which is exact), `None` is
`Option.none`, exceptions are `Except` errors, and remote calls are oracle
functions passed in as parameters.
-/

namespace RagSpec

/-! ## Python string primitives -/

/-- The ASCII whitespace characters recognised by Python's `str.strip`,
`str.isspace` and the regex class in pattern matching: space, tab, newline,
carriage return, vertical tab, form feed.  (The sources only ever contain
ASCII text, so the unicode extensions are irrelevant here.) -/
def pyIsSpace (c : Char) : Bool :=
  c = ' ' || c = '\t' || c = '\n' || c = Char.ofNat 13 || c = Char.ofNat 11 || c = Char.ofNat 12

/-- Python `str.strip()`: remove leading and trailing whitespace. -/
def pyStrip (s : String) : String :=
  ⟨((s.data.dropWhile pyIsSpace).reverse.dropWhile pyIsSpace).reverse⟩

/-- Python `str.rfind(ch, a, b)` for a single-character needle: the largest
index `i` with `a ≤ i < b` and `s[i] = ch`, or `-1` when there is none. -/
def pyRfind (s : List Char) (ch : Char) (a b : Nat) : Int :=
  (List.range s.length).foldl
    (fun acc i => if a ≤ i ∧ i < b ∧ s.get? i = some ch then (i : Int) else acc) (-1)

/-! ## ChunkingService (`app/services/chunking_service.py`) -/

/-- One chunk dictionary produced by `ChunkingService`.  `startPos`/`endPos`
are the `start_token`/`end_token` keys in token mode and the
`start_char`/`end_char` keys in character mode.  The caller-supplied metadata
dict that is spread into each chunk carries no information used by any claim
and is omitted. -/
structure Chunk where
  content : String
  chunk_index : Nat
  startPos : Nat
  endPos : Nat
deriving DecidableEq

/-- The span `(start, end)` of a chunk. -/
def Chunk.span (c : Chunk) : Nat × Nat := (c.startPos, c.endPos)

/-- Loop body of `_chunk_with_tokens`, lines 88-117 of
`chunking_service.py`.  `fuel` bounds the number of iterations; the Python
loop runs while `start_idx < len(tokens)` and breaks after appending a chunk
whose end reaches the token count, so `tokens.length + 1` iterations always
suffice when `chunk_overlap < chunk_size` (the start index then strictly
increases).  Each iteration slices `tokens[start:end]` with
`end = min(start + chunk_size, len(tokens))`, decodes it, appends a chunk
whose `chunk_index` is the current list length, and continues at
`end - chunk_overlap`. -/
def chunkTokensGo (decode : List Nat → String) (tokens : List Nat)
    (chunk_size chunk_overlap : Nat) : Nat → Nat → List Chunk → List Chunk
  | 0, _, acc => acc
  | fuel + 1, start_idx, acc =>
    if start_idx < tokens.length then
      let end_idx := min (start_idx + chunk_size) tokens.length
      let chunk_tokens := (tokens.drop start_idx).take (end_idx - start_idx)
      let acc' := acc ++ [⟨decode chunk_tokens, acc.length, start_idx, end_idx⟩]
      if tokens.length ≤ end_idx then acc'
      else chunkTokensGo decode tokens chunk_size chunk_overlap fuel
        (end_idx - chunk_overlap) acc'
    else acc

/-- `_chunk_with_tokens` (token mode): the encoded token sequence is supplied
directly together with the tokenizer's `decode`. -/
def chunk_with_tokens (decode : List Nat → String) (tokens : List Nat)
    (chunk_size chunk_overlap : Nat) : List Chunk :=
  chunkTokensGo decode tokens chunk_size chunk_overlap (tokens.length + 1) 0 []

/-- The start index for the next character-mode window, line 155 of
`chunking_service.py`: `start_idx = max(start_idx + 1, end_idx - char_overlap)`.
(The Python right operand may be a negative `int`; since the left operand
`start_idx + 1` is at least 1, truncated `Nat` subtraction yields the same
maximum.) -/
def charNextStart (start_idx end_idx char_overlap : Nat) : Nat :=
  max (start_idx + 1) (end_idx - char_overlap)

/-- The window end computed by `_chunk_with_characters`, lines 129-139 of
`chunking_service.py`: `min(start_idx + char_chunk_size, len(text))`,
snapped back to just after the last space or newline in the window when the
window does not already reach the end of the text and such a break point
lies strictly after `start_idx`. -/
def charEndIdx (text : List Char) (char_chunk_size start_idx : Nat) : Nat :=
  let end_idx0 := min (start_idx + char_chunk_size) text.length
  if end_idx0 < text.length then
    let last_break := pyRfind text ' ' start_idx end_idx0
    let last_newline := pyRfind text '\n' start_idx end_idx0
    let break_point := max last_break last_newline
    if (start_idx : Int) < break_point then break_point.toNat + 1 else end_idx0
  else end_idx0

/-- Loop body of `_chunk_with_characters`, lines 125-157 of
`chunking_service.py`: window ending at `charEndIdx`; the stripped window
text is appended only when non-empty; the loop breaks when the window end
reaches the text length, else continues at `charNextStart`.  `fuel` bounds
the iterations; `text.length + 1` always suffices because the start index
strictly increases. -/
def chunkCharsGo (text : List Char) (char_chunk_size char_overlap : Nat) :
    Nat → Nat → List Chunk → List Chunk
  | 0, _, acc => acc
  | fuel + 1, start_idx, acc =>
    if start_idx < text.length then
      let end_idx := charEndIdx text char_chunk_size start_idx
      let chunk_text := pyStrip ⟨(text.drop start_idx).take (end_idx - start_idx)⟩
      let acc' :=
        if chunk_text.isEmpty then acc
        else acc ++ [⟨chunk_text, acc.length, start_idx, end_idx⟩]
      if text.length ≤ end_idx then acc'
      else chunkCharsGo text char_chunk_size char_overlap fuel
        (charNextStart start_idx end_idx char_overlap) acc'
    else acc

/-- `_chunk_with_characters` (character fallback mode): the character window
size and overlap are the token parameters scaled by the 1-token-≈-4-chars
approximation, lines 122-123. -/
def chunk_with_characters (text : String) (chunk_size chunk_overlap : Nat) :
    List Chunk :=
  chunkCharsGo text.data (chunk_size * 4) (chunk_overlap * 4) (text.data.length + 1) 0 []

/-- `ChunkingService.chunk_text`: empty or whitespace-only text yields no
chunks; otherwise token mode is used when a tokenizer (`encode`/`decode`
pair) is available and character mode otherwise. -/
def chunk_text (enc : Option ((String → List Nat) × (List Nat → String)))
    (chunk_size chunk_overlap : Nat) (text : String) : List Chunk :=
  if text.isEmpty || (pyStrip text).isEmpty then []
  else
    match enc with
    | some (encode, decode) => chunk_with_tokens decode (encode text) chunk_size chunk_overlap
    | none => chunk_with_characters text chunk_size chunk_overlap

/-! ## DocumentParser._normalize_text (`app/services/document_parser.py`) -/

/-- First substitution of `_normalize_text`, line 136:
`re.sub(r'\s+', ' ', text)` replaces every maximal run of whitespace
characters by a single space.  `inRun` records whether the previous
character belonged to the current run. -/
def collapseWSAux : List Char → Bool → List Char
  | [], _ => []
  | c :: rest, inRun =>
    if pyIsSpace c then
      if inRun then collapseWSAux rest true
      else ' ' :: collapseWSAux rest true
    else c :: collapseWSAux rest false

/-- Length of the maximal whitespace run at the head of the list (the
longest text a greedy `\s*` can consume here). -/
def wsRunLen (cs : List Char) : Nat := (cs.takeWhile pyIsSpace).length

/-- Length of the maximal newline run at the head of the list (the longest
text a greedy `\n+` can consume here). -/
def nlRunLen (cs : List Char) : Nat := (cs.takeWhile (fun c => c == '\n')).length

/-- Try `f n, f (n-1), ..., f 0` and return the first `some`: the
backtracking order of a greedy quantifier that first consumes `n`
characters. -/
def findFirstDesc (n : Nat) (f : Nat → Option Nat) : Option Nat :=
  (List.range (n + 1)).reverse.findSome? f

/-- Greedy backtracking match of the tail `\s* \n \s* \n+` of the pattern
`\n\s*\n\s*\n+` (line 137 of `document_parser.py`), applied after the
leading `\n` has been consumed.  Returns the number of characters of `cs`
consumed by the match with Python's leftmost-greedy semantics: the first
`\s*` takes as many characters as possible subject to the rest matching,
then the second `\s*`, then `\n+` takes its maximal run. -/
def matchAfterFirstNL (cs : List Char) : Option Nat :=
  findFirstDesc (wsRunLen cs) (fun a =>
    match cs.drop a with
    | '\n' :: cs2 =>
      findFirstDesc (wsRunLen cs2) (fun b =>
        match cs2.drop b with
        | '\n' :: _ => some (a + 1 + b + nlRunLen (cs2.drop b))
        | _ => none)
    | _ => none)

/-- Second substitution of `_normalize_text`, line 137:
`re.sub(r'\n\s*\n\s*\n+', '\n\n', text)`.  The scanner walks the text left
to right; a match can only begin at a `'\n'`, where the remainder of the
pattern is matched greedily; each match is replaced by two newlines and
scanning resumes after it.  Each step consumes at least one character, so
`cs.length + 1` fuel always suffices. -/
def sub2Aux : Nat → List Char → List Char
  | 0, cs => cs
  | _ + 1, [] => []
  | fuel + 1, c :: rest =>
    if c = '\n' then
      match matchAfterFirstNL rest with
      | some k => '\n' :: '\n' :: sub2Aux fuel (rest.drop k)
      | none => c :: sub2Aux fuel rest
    else c :: sub2Aux fuel rest

/-- `DocumentParser._normalize_text`, lines 125-140: collapse whitespace
runs to single spaces, apply the blank-line substitution, strip. -/
def normalize_text (s : String) : String :=
  let s1 := collapseWSAux s.data false
  let s2 := sub2Aux (s1.length + 1) s1
  pyStrip ⟨s2⟩

/-! ## EmbeddingService (`app/services/embedding_service.py`) -/

/-- A Python exception as observed by the retry loop: `ename` is
`type(e).__name__`, `emsg` is `str(e)`. -/
structure PyExc where
  ename : String
  emsg : String
deriving DecidableEq

/-- Python substring test `pat in s`: some drop of `s` starts with `pat`. -/
def containsSub (s pat : String) : Bool :=
  (List.range (s.data.length + 1)).any
    (fun i => pat.data == (s.data.drop i).take pat.data.length)

/-- The error value carried by a raised exception.  `exceptionMsg` models
the builtin `Exception(message)` the source actually raises (its payload is
the single message string).  `embeddingFailure` is modelled from the spec:
an `EmbeddingFailure` whose payload carries the classification and the
remediation hint as separate fields; no such class exists anywhere in the
source. -/
inductive RaisedError where
  | exceptionMsg (message : String)
  | embeddingFailure (category : String) (hint : String) (message : String)
deriving DecidableEq

/-- Whether a raised error is the structured `EmbeddingFailure` payload
(with classification and hint fields) rather than a bare message. -/
def RaisedError.isEmbeddingFailure : RaisedError → Bool
  | .exceptionMsg _ => false
  | .embeddingFailure _ _ _ => true

/-- The `detailed_error` classification of the terminal exception, lines
210-232 of `embedding_service.py`: four branches keyed on substrings of the
failure message (and exception type name), each building a message that
embeds a remediation hint. -/
def detailedErrorFor (e : PyExc) (endpoint deployment : String) : String :=
  if containsSub e.emsg "Connection" || containsSub e.ename "ConnectionError" then
    "Connection error to Azure OpenAI. Endpoint: " ++ endpoint ++ ", Deployment: "
      ++ deployment
      ++ ". Check: 1) Endpoint URL is correct, 2) Network connectivity, 3) Deployment name exists"
  else if containsSub e.emsg "401" || containsSub e.emsg "Unauthorized" then
    "Authentication failed. Check: 1) API key is correct, 2) API key has not expired, 3) API key has proper permissions"
  else if containsSub e.emsg "404" || containsSub e.emsg.toLower "not found" then
    "Deployment not found: " ++ deployment
      ++ ". Check: 1) Deployment name is correct, 2) Deployment exists in Azure portal, 3) Deployment is active"
  else e.ename ++ ": " ++ e.emsg

/-- The message of the exception raised on exhaustion, line 234.  When the
loop never ran (`max_retries = 0`, impossible with the fixed configuration)
`last_exception` is `None` and Python would format `NoneType: None`. -/
def terminalMessage (max_retries : Nat) (lastE : Option PyExc)
    (endpoint deployment : String) : String :=
  "Failed to generate embeddings after " ++ toString max_retries ++ " attempts: "
    ++ match lastE with
       | some e => detailedErrorFor e endpoint deployment
       | none => "NoneType: None"

/-- `self.max_retries`, set in the constructor (line 56). -/
def max_retries : Nat := 3

/-- `self.retry_delay`, set in the constructor (line 57); 1.0 in the
source, kept symbolic as `retry_delay` below so the backoff claims can be
stated for an arbitrary base delay. -/
def retry_delay : ℚ := 1

deriving instance DecidableEq for Except

/-- The outcome of one `generate_embeddings` call: the returned value or
raised error, the number of remote attempts actually made, and the total
time spent in `time.sleep`. -/
structure EmbOutcome where
  result : Except RaisedError (List (List ℚ))
  attempts : Nat
  slept : ℚ
deriving DecidableEq

/-- The retry loop of `generate_embeddings`, lines 101-208: attempts are
numbered from 0; a successful remote call returns immediately; a failure on
any attempt but the last sleeps `delay * 2 ^ attempt` and retries; when all
attempts fail the terminal exception is raised with the classified message.
The remote embedding API is the oracle `call`, indexed by attempt number
and applied to the filtered text list.  Recursion is on `remaining`, the
number of loop iterations left out of `max_retries`. -/
def genEmbedsGo (call : Nat → List String → Except PyExc (List (List ℚ)))
    (valid_texts : List String) (maxR : Nat) (delay : ℚ)
    (endpoint deployment : String) :
    Nat → Nat → Nat → ℚ → Option PyExc → EmbOutcome
  | 0, _, made, slept, lastE =>
    ⟨.error (.exceptionMsg (terminalMessage maxR lastE endpoint deployment)), made, slept⟩
  | remaining + 1, attempt, made, slept, _lastE =>
    match call attempt valid_texts with
    | .ok embeddings => ⟨.ok embeddings, made + 1, slept⟩
    | .error e =>
      let slept' := if attempt < maxR - 1 then slept + delay * 2 ^ attempt else slept
      genEmbedsGo call valid_texts maxR delay endpoint deployment
        remaining (attempt + 1) (made + 1) slept' (some e)

/-- The validity filter of line 94: `text and text.strip()`. -/
def isValidText (t : String) : Bool := !t.isEmpty && !(pyStrip t).isEmpty

/-- `EmbeddingService.generate_embeddings`: empty input and
whitespace-only-after-filtering input return `[]` without any remote call;
otherwise the retry loop runs with `max_retries = 3`. -/
def generate_embeddings (call : Nat → List String → Except PyExc (List (List ℚ)))
    (endpoint deployment : String) (delay : ℚ) (texts : List String) : EmbOutcome :=
  if texts.isEmpty then ⟨.ok [], 0, 0⟩
  else
    let valid_texts := texts.filter isValidText
    if valid_texts.isEmpty then ⟨.ok [], 0, 0⟩
    else genEmbedsGo call valid_texts max_retries delay endpoint deployment
      max_retries 0 0 0 none

/-- Whether the outcome raised the structured spec-side `EmbeddingFailure`
(classification and hint as payload fields) rather than a plain message
exception. -/
def EmbOutcome.raisedStructured (o : EmbOutcome) : Bool :=
  match o.result with
  | .error e => e.isEmbeddingFailure
  | .ok _ => false

/-- A remote embedding oracle that always fails with a connection error. -/
def alwaysConnectionError : Nat → List String → Except PyExc (List (List ℚ)) :=
  fun _ _ => .error ⟨"APIConnectionError", "Connection error."⟩

/-- A remote embedding oracle that fails on attempts 0 and 1 and succeeds
on attempt 2 with a single embedding. -/
def failTwiceThenOk : Nat → List String → Except PyExc (List (List ℚ)) :=
  fun attempt _ => if attempt < 2 then .error ⟨"APIError", "boom"⟩ else .ok [[1]]

/-! ## RAGService (`app/services/rag_service.py`) and the chat models
(`app/models/chat.py`, `app/api/v1/routes/chat.py`) -/

/-- One search result dictionary produced by `SearchService.search`: the
selected index fields plus the similarity score (`@search.score`, absent →
`None`). -/
structure SearchResult where
  id : String
  file_id : String
  filename : String
  content : String
  chunk_index : Nat
  score : Option ℚ
  metadata : String
deriving DecidableEq

/-- The pydantic `SourceDocument` model (`app/models/chat.py`, lines
23-30). -/
structure SourceDocument where
  content : String
  file_id : String
  filename : String
  chunk_index : Nat
  score : Option ℚ
deriving DecidableEq

/-- `RAGService._format_sources`, lines 173-195: each search result, in
order, becomes one `SourceDocument` carrying its content, provenance and
score. -/
def format_sources (search_results : List SearchResult) : List SourceDocument :=
  search_results.map (fun r => ⟨r.content, r.file_id, r.filename, r.chunk_index, r.score⟩)

/-- `RAGService._build_context`, lines 91-112: results are labeled
`[Document i: filename, Chunk chunk_index]` with `i` counted from 1 in rank
order, and joined with newlines. -/
def build_context (search_results : List SearchResult) : String :=
  String.intercalate "\n"
    (((List.range search_results.length).zip search_results).map
      (fun p =>
        "[Document " ++ toString (p.1 + 1) ++ ": " ++ p.2.filename ++ ", Chunk "
          ++ toString p.2.chunk_index ++ "]\n" ++ p.2.content ++ "\n"))

/-- The fixed no-documents refusal answer, line 66. -/
def no_documents_answer : String :=
  "I cannot answer this question because there are no documents uploaded and indexed yet. Please upload documents first, then ask your question."

/-- Python's `top_k or self.default_top_k` (line 45) on an optional `int`:
`None` and `0` are falsy and fall back to the default; every other value,
negative included, is kept. -/
def pyOrInt (v : Option Int) (default_top_k : Int) : Int :=
  match v with
  | none => default_top_k
  | some k => if k = 0 then default_top_k else k

/-- The observable outcome of `RAGService.query`: the returned dictionary
plus whether the answer-generation step (`_generate_answer`, the chat
completion) was invoked. -/
structure QueryOutcome where
  answer : String
  sources : List SourceDocument
  question : String
  generateCalled : Bool
deriving DecidableEq

/-- `RAGService.query`, lines 30-89.  The embedding call, the index search
and the chat completion are oracles.  When the search returns no results
the fixed refusal is returned with empty sources and the generation step is
never invoked; otherwise the answer is generated over the built context and
the sources are the formatted search results. -/
def RAGquery (embed : String → List ℚ) (search : List ℚ → Int → List SearchResult)
    (generate : String → String → String) (default_top_k : Int)
    (question : String) (top_k : Option Int) : QueryOutcome :=
  let k := pyOrInt top_k default_top_k
  let query_embedding := embed question
  let search_results := search query_embedding k
  if search_results.isEmpty then
    ⟨no_documents_answer, [], question, false⟩
  else
    ⟨generate question (build_context search_results),
      format_sources search_results, question, true⟩

/-- Validation of the pydantic `ChatRequest` model (`app/models/chat.py`,
lines 8-12): `question` must have length at least 1 (`min_length=1`);
`top_k` is `Optional[int]` with no further constraint, so its value never
affects acceptance. -/
def chatRequestValid (question : String) (_top_k : Option Int) : Bool :=
  decide (1 ≤ question.length)

/-- A query-embedding oracle returning an empty vector. -/
def embedStub : String → List ℚ := fun _ => []

/-- A search oracle over an empty index. -/
def searchStubEmpty : List ℚ → Int → List SearchResult := fun _ _ => []

/-- A search oracle returning two ranked results. -/
def searchStubTwo : List ℚ → Int → List SearchResult := fun _ _ =>
  [⟨"id-0", "file-1", "doc.pdf", "The sky is blue.", 0, some 1, "{}"⟩,
   ⟨"id-1", "file-1", "doc.pdf", "Second chunk.", 1, some (1/2), "{}"⟩]

/-- A search oracle that records the `top_k` it was queried with in the
filename of its single result. -/
def searchStubRecorder : List ℚ → Int → List SearchResult := fun _ k =>
  [⟨"id-0", "file-1", toString k, "content", 0, none, "{}"⟩]

/-- A chat-completion oracle returning a fixed answer. -/
def generateStub : String → String → String := fun _ _ => "generated"

/-! ## Theorems about the token-mode chunker -/

/-- The sliding-window description from the spec: starting at `start`, each
window covers `chunk_size` tokens (clipped to the end of the sequence), a
non-final window is followed by one starting `chunk_size - chunk_overlap`
further (equivalently at `end - chunk_overlap`), and the last window is the
one reaching the end of the token sequence; `nil` covers the degenerate
empty token sequence, and no window is ever empty. -/
inductive SpanChain (len chunk_size chunk_overlap : Nat) : Nat → List (Nat × Nat) → Prop
  | nil (start : Nat) (h : len ≤ start) : SpanChain len chunk_size chunk_overlap start []
  | last (start : Nat) (h1 : start < len) (h2 : len ≤ start + chunk_size) :
      SpanChain len chunk_size chunk_overlap start [(start, len)]
  | step (start : Nat) (rest : List (Nat × Nat)) (h1 : start + chunk_size < len)
      (h : SpanChain len chunk_size chunk_overlap (start + chunk_size - chunk_overlap) rest) :
      SpanChain len chunk_size chunk_overlap start ((start, start + chunk_size) :: rest)

lemma spanChain_unique {len s o : Nat} {start : Nat} {l1 l2 : List (Nat × Nat)}
    (h1 : SpanChain len s o start l1) (h2 : SpanChain len s o start l2) : l1 = l2 := by
  induction h1 generalizing l2 with
  | nil start h =>
    cases h2 with
    | nil _ _ => rfl
    | last _ ha _ => omega
    | step _ _ ha _ => omega
  | last start ha hb =>
    cases h2 with
    | nil _ h => omega
    | last _ _ _ => rfl
    | step _ _ hc _ => omega
  | step start rest ha hrest ih =>
    cases h2 with
    | nil _ h => omega
    | last _ _ hc => omega
    | step _ rest2 _ hrest2 => rw [ih hrest2]

lemma chunkTokensGo_spanChain (decode : List Nat → String) (tokens : List Nat)
    (chunk_size chunk_overlap : Nat) (hov : chunk_overlap < chunk_size) :
    ∀ fuel start acc, tokens.length - start < fuel →
      ∃ rest, chunkTokensGo decode tokens chunk_size chunk_overlap fuel start acc
          = acc ++ rest ∧
        SpanChain tokens.length chunk_size chunk_overlap start (rest.map Chunk.span) := by
  intro fuel
  induction fuel with
  | zero => intro start acc h; exact absurd h (Nat.not_lt_zero _)
  | succ fuel ih =>
    intro start acc h
    by_cases hs : start < tokens.length
    · rw [chunkTokensGo, if_pos hs]
      by_cases hend : tokens.length ≤ min (start + chunk_size) tokens.length
      · rw [if_pos hend]
        have hmin : min (start + chunk_size) tokens.length = tokens.length :=
          le_antisymm (min_le_right _ _) hend
        refine ⟨[⟨decode ((tokens.drop start).take
          (min (start + chunk_size) tokens.length - start)), acc.length, start,
          min (start + chunk_size) tokens.length⟩], rfl, ?_⟩
        rw [List.map_singleton]
        have : Chunk.span ⟨decode ((tokens.drop start).take
            (min (start + chunk_size) tokens.length - start)), acc.length, start,
            min (start + chunk_size) tokens.length⟩ = (start, tokens.length) := by
          simp [Chunk.span, hmin]
        rw [this]
        exact SpanChain.last start hs (by omega)
      · rw [if_neg hend]
        push_neg at hend
        have hlt : start + chunk_size < tokens.length := by
          rcases lt_or_le (start + chunk_size) tokens.length with h' | h'
          · exact h'
          · rw [min_eq_right h'] at hend; omega
        have hmin : min (start + chunk_size) tokens.length = start + chunk_size :=
          min_eq_left (le_of_lt hlt)
        rw [hmin]
        obtain ⟨rest, hr, hchain⟩ :=
          ih (start + chunk_size - chunk_overlap)
            (acc ++ [⟨decode ((tokens.drop start).take (start + chunk_size - start)),
              acc.length, start, start + chunk_size⟩]) (by omega)
        refine ⟨⟨decode ((tokens.drop start).take (start + chunk_size - start)),
          acc.length, start, start + chunk_size⟩ :: rest, by rw [hr]; simp, ?_⟩
        rw [List.map_cons]
        exact SpanChain.step start _ hlt hchain
    · rw [chunkTokensGo, if_neg hs]
      exact ⟨[], by simp, SpanChain.nil start (le_of_not_lt hs)⟩

/-- C1: in token mode the chunker slides a `chunk_size`-token window over
the encoded sequence, advancing by `chunk_size - chunk_overlap` tokens per
step (the next window starts at the previous end minus the overlap), and
stops when the window reaches the end with no trailing empty chunk
(`SpanChain` states exactly this shape); in particular a 3000-token text
with `chunk_size = 1000`, `chunk_overlap = 200` yields exactly the four
spans `(0,1000), (800,1800), (1600,2600), (2400,3000)`. -/
theorem token_mode_window_spans (decode : List Nat → String) (tokens : List Nat)
    (chunk_size chunk_overlap : Nat) (hov : chunk_overlap < chunk_size) :
    SpanChain tokens.length chunk_size chunk_overlap 0
      ((chunk_with_tokens decode tokens chunk_size chunk_overlap).map Chunk.span) ∧
    (tokens.length = 3000 → chunk_size = 1000 → chunk_overlap = 200 →
      (chunk_with_tokens decode tokens chunk_size chunk_overlap).map Chunk.span
        = [(0, 1000), (800, 1800), (1600, 2600), (2400, 3000)]) := by
  obtain ⟨rest, hr, hchain⟩ :=
    chunkTokensGo_spanChain decode tokens chunk_size chunk_overlap hov
      (tokens.length + 1) 0 [] (by omega)
  have hmain : SpanChain tokens.length chunk_size chunk_overlap 0
      ((chunk_with_tokens decode tokens chunk_size chunk_overlap).map Chunk.span) := by
    rw [chunk_with_tokens, hr, List.nil_append]; exact hchain
  refine ⟨hmain, fun h3000 h1000 h200 => ?_⟩
  subst h1000; subst h200
  rw [h3000] at hmain
  have chain2 : SpanChain 3000 1000 200 0
      [(0, 1000), (800, 1800), (1600, 2600), (2400, 3000)] := by
    have c4 : SpanChain 3000 1000 200 2400 [(2400, 3000)] :=
      SpanChain.last 2400 (by norm_num) (by norm_num)
    have c3 : SpanChain 3000 1000 200 1600 [(1600, 2600), (2400, 3000)] := by
      have := @SpanChain.step 3000 1000 200
        1600 [(2400, 3000)] (by norm_num) (by norm_num; exact c4)
      simpa using this
    have c2 : SpanChain 3000 1000 200 800 [(800, 1800), (1600, 2600), (2400, 3000)] := by
      have := @SpanChain.step 3000 1000 200
        800 [(1600, 2600), (2400, 3000)] (by norm_num) (by norm_num; exact c3)
      simpa using this
    have := @SpanChain.step 3000 1000 200
      0 [(800, 1800), (1600, 2600), (2400, 3000)] (by norm_num) (by norm_num; exact c2)
    simpa using this
  exact spanChain_unique hmain chain2

/-- Witness for C1 at a concrete 3000-token input. -/
theorem token_mode_window_spans_witness :
    200 < 1000 ∧
      (chunk_with_tokens (fun _ => "") (List.replicate 3000 0) 1000 200).map Chunk.span
        = [(0, 1000), (800, 1800), (1600, 2600), (2400, 3000)] :=
  ⟨by norm_num,
    (token_mode_window_spans (fun _ => "") (List.replicate 3000 0) 1000 200
      (by norm_num)).2 (by rw [List.length_replicate]) rfl rfl⟩

/-! ## Theorems about chunk indices (both modes) -/

lemma chunkIndex_snoc {l : List Chunk} {c : Chunk} (hc : c.chunk_index = l.length)
    (h : ∀ i (hi : i < l.length), l[i].chunk_index = i) :
    ∀ i (hi : i < (l ++ [c]).length), (l ++ [c])[i].chunk_index = i := by
  intro i hi
  have hi' : i < l.length + 1 := by simpa using hi
  rcases Nat.lt_succ_iff_lt_or_eq.1 hi' with h' | h'
  · rw [List.getElem_append_left h']
    exact h i h'
  · subst h'
    rw [List.getElem_concat_length _ _ _ rfl]
    exact hc

lemma chunkTokensGo_chunkIndex (decode : List Nat → String) (tokens : List Nat)
    (chunk_size chunk_overlap : Nat) :
    ∀ fuel start acc, (∀ i (hi : i < acc.length), acc[i].chunk_index = i) →
      ∀ i (hi : i < (chunkTokensGo decode tokens chunk_size chunk_overlap fuel start acc).length),
        (chunkTokensGo decode tokens chunk_size chunk_overlap fuel start acc)[i].chunk_index
          = i := by
  intro fuel
  induction fuel with
  | zero => intro start acc h; exact h
  | succ fuel ih =>
    intro start acc h
    rw [chunkTokensGo]
    by_cases hs : start < tokens.length
    · rw [if_pos hs]
      by_cases hend : tokens.length ≤ min (start + chunk_size) tokens.length
      · rw [if_pos hend]
        exact chunkIndex_snoc rfl h
      · rw [if_neg hend]
        exact ih _ _ (chunkIndex_snoc rfl h)
    · rw [if_neg hs]; exact h

lemma chunkCharsGo_chunkIndex (text : List Char) (char_chunk_size char_overlap : Nat) :
    ∀ fuel start acc, (∀ i (hi : i < acc.length), acc[i].chunk_index = i) →
      ∀ i (hi : i < (chunkCharsGo text char_chunk_size char_overlap fuel start acc).length),
        (chunkCharsGo text char_chunk_size char_overlap fuel start acc)[i].chunk_index
          = i := by
  intro fuel
  induction fuel with
  | zero => intro start acc h; exact h
  | succ fuel ih =>
    intro start acc h
    rw [chunkCharsGo]
    by_cases hs : start < text.length
    · rw [if_pos hs]
      set end_idx := charEndIdx text char_chunk_size start with hend_idx
      have hacc' : ∀ (acc' : List Chunk),
          acc' = (if (pyStrip ⟨(text.drop start).take (end_idx - start)⟩).isEmpty then acc
            else acc ++ [⟨pyStrip ⟨(text.drop start).take (end_idx - start)⟩,
              acc.length, start, end_idx⟩]) →
          ∀ i (hi : i < acc'.length), acc'[i].chunk_index = i := by
        intro acc' hdef
        by_cases hempty : (pyStrip ⟨(text.drop start).take (end_idx - start)⟩).isEmpty
        · rw [hdef, if_pos hempty]; exact h
        · rw [hdef, if_neg hempty]; exact chunkIndex_snoc rfl h
      by_cases hl : text.length ≤ end_idx
      · rw [if_pos hl]
        exact hacc' _ rfl
      · rw [if_neg hl]
        exact ih _ _ (hacc' _ rfl)
    · rw [if_neg hs]; exact h

/-- C2: for every non-empty input text, in both token mode and character
mode (including when character mode skips windows stripping to empty), the
`chunk_index` of the `i`-th chunk returned by `chunk_text` is exactly `i`,
so the indices are `0..n-1`, strictly increasing with no gaps. -/
theorem chunk_index_sequential (enc : Option ((String → List Nat) × (List Nat → String)))
    (chunk_size chunk_overlap : Nat) (text : String) (_hne : text ≠ "") :
    ∀ i (hi : i < (chunk_text enc chunk_size chunk_overlap text).length),
      (chunk_text enc chunk_size chunk_overlap text)[i].chunk_index = i := by
  rw [chunk_text.eq_def]
  by_cases hempty : text.isEmpty || (pyStrip text).isEmpty
  · rw [if_pos hempty]
    intro i hi
    simp at hi
  · rw [if_neg hempty]
    match enc with
    | some (encode, decode) =>
      exact chunkTokensGo_chunkIndex decode (encode text) chunk_size chunk_overlap _ 0 []
        (fun i hi => by simp at hi)
    | none =>
      exact chunkCharsGo_chunkIndex text.data (chunk_size * 4) (chunk_overlap * 4) _ 0 []
        (fun i hi => by simp at hi)

/-- Witness for C2 at a concrete text in character mode. -/
theorem chunk_index_sequential_witness :
    "ab cdefgh" ≠ "" ∧
      ∀ i (hi : i < (chunk_text none 1 1 "ab cdefgh").length),
        (chunk_text none 1 1 "ab cdefgh")[i].chunk_index = i :=
  ⟨by decide, chunk_index_sequential none 1 1 "ab cdefgh" (by decide)⟩

/-! ## Theorems about character-mode forward progress and termination -/

lemma chain'_snoc_lt {acc : List Chunk} {c : Chunk}
    (hchain : List.Chain' (fun a b => a.startPos < b.startPos) acc)
    (hall : ∀ x ∈ acc, x.startPos < c.startPos) :
    List.Chain' (fun a b => a.startPos < b.startPos) (acc ++ [c]) := by
  refine List.chain'_append.2 ⟨hchain, List.chain'_singleton _, ?_⟩
  intro x hx y hy
  simp only [List.head?_cons, Option.mem_def, Option.some.injEq] at hy
  subst hy
  exact hall x (List.mem_of_mem_getLast? hx)

lemma charNextStart_gt (start_idx end_idx char_overlap : Nat) :
    start_idx < charNextStart start_idx end_idx char_overlap := by
  rw [charNextStart]
  exact lt_of_lt_of_le (Nat.lt_succ_self _) (le_max_left _ _)

lemma chunkCharsGo_fuel (text : List Char) (char_chunk_size char_overlap : Nat) :
    ∀ fuel₁ fuel₂ start acc, text.length - start < fuel₁ → text.length - start < fuel₂ →
      chunkCharsGo text char_chunk_size char_overlap fuel₁ start acc
        = chunkCharsGo text char_chunk_size char_overlap fuel₂ start acc := by
  intro fuel₁
  induction fuel₁ with
  | zero => intro fuel₂ start acc h1 h2; exact absurd h1 (Nat.not_lt_zero _)
  | succ f ih =>
    intro fuel₂ start acc h1 h2
    match fuel₂ with
    | 0 => exact absurd h2 (Nat.not_lt_zero _)
    | f₂ + 1 =>
      rw [chunkCharsGo, chunkCharsGo]
      by_cases hs : start < text.length
      · rw [if_pos hs, if_pos hs]
        set end_idx := charEndIdx text char_chunk_size start with hend_idx
        by_cases hl : text.length ≤ end_idx
        · rw [if_pos hl, if_pos hl]
        · rw [if_neg hl, if_neg hl]
          have hnext := charNextStart_gt start end_idx char_overlap
          exact ih f₂ _ _ (by omega) (by omega)
      · rw [if_neg hs, if_neg hs]

lemma chunkCharsGo_starts_chain (text : List Char) (char_chunk_size char_overlap : Nat) :
    ∀ fuel start acc, (∀ c ∈ acc, c.startPos < start) →
      List.Chain' (fun a b => a.startPos < b.startPos) acc →
      List.Chain' (fun a b => a.startPos < b.startPos)
        (chunkCharsGo text char_chunk_size char_overlap fuel start acc) := by
  intro fuel
  induction fuel with
  | zero => intro start acc _ hchain; exact hchain
  | succ f ih =>
    intro start acc hall hchain
    rw [chunkCharsGo]
    by_cases hs : start < text.length
    · rw [if_pos hs]
      set end_idx := charEndIdx text char_chunk_size start with hend_idx
      have hnext := charNextStart_gt start end_idx char_overlap
      have hchain' : List.Chain' (fun a b => a.startPos < b.startPos)
          (if (pyStrip ⟨(text.drop start).take (end_idx - start)⟩).isEmpty then acc
            else acc ++ [⟨pyStrip ⟨(text.drop start).take (end_idx - start)⟩,
              acc.length, start, end_idx⟩]) := by
        by_cases hempty : (pyStrip ⟨(text.drop start).take (end_idx - start)⟩).isEmpty
        · rw [if_pos hempty]; exact hchain
        · rw [if_neg hempty]; exact chain'_snoc_lt hchain hall
      have hall' : ∀ c ∈ (if (pyStrip ⟨(text.drop start).take (end_idx - start)⟩).isEmpty
          then acc
          else acc ++ [⟨pyStrip ⟨(text.drop start).take (end_idx - start)⟩,
            acc.length, start, end_idx⟩]),
          c.startPos < charNextStart start end_idx char_overlap := by
        by_cases hempty : (pyStrip ⟨(text.drop start).take (end_idx - start)⟩).isEmpty
        · rw [if_pos hempty]
          exact fun c hc => lt_trans (hall c hc) hnext
        · rw [if_neg hempty]
          intro c hc
          rcases List.mem_append.1 hc with hc | hc
          · exact lt_trans (hall c hc) hnext
          · simp only [List.mem_singleton] at hc
            rw [hc]
            exact hnext
      by_cases hl : text.length ≤ end_idx
      · rw [if_pos hl]; exact hchain'
      · rw [if_neg hl]; exact ih _ _ hall' hchain'
    · rw [if_neg hs]; exact hchain

/-- C8 (amended): after a character-mode window ending at `end_idx`, the
next window starts at `max (start_idx + 1) (end_idx - char_overlap)` — not
at `max 1 (end_idx - overlap)` — which strictly exceeds the current start.
Consequently the loop terminates on every input (any fuel beyond the text
length computes the same result as `chunk_with_characters`), and the
recorded chunk start positions are strictly increasing. -/
theorem char_mode_forward_progress :
    (∀ start_idx end_idx char_overlap : Nat,
        start_idx < charNextStart start_idx end_idx char_overlap) ∧
    (∀ (text : String) (chunk_size chunk_overlap fuel : Nat),
        text.data.length < fuel →
        chunkCharsGo text.data (chunk_size * 4) (chunk_overlap * 4) fuel 0 []
          = chunk_with_characters text chunk_size chunk_overlap) ∧
    (∀ (text : String) (chunk_size chunk_overlap : Nat),
        List.Chain' (fun a b => a.startPos < b.startPos)
          (chunk_with_characters text chunk_size chunk_overlap)) := by
  refine ⟨charNextStart_gt, fun text cs co fuel hf => ?_, fun text cs co => ?_⟩
  · rw [chunk_with_characters]
    exact chunkCharsGo_fuel text.data (cs * 4) (co * 4) fuel (text.data.length + 1) 0 []
      (by omega) (by omega)
  · rw [chunk_with_characters]
    exact chunkCharsGo_starts_chain text.data (cs * 4) (co * 4) (text.data.length + 1) 0 []
      (fun c hc => absurd hc (List.not_mem_nil c)) List.chain'_nil

/-- Witness for C8 (amended) at a concrete text and fuel. -/
theorem char_mode_forward_progress_witness :
    (0 < charNextStart 0 3 4) ∧
      chunkCharsGo "ab cdefgh".data 4 4 42 0 [] = chunk_with_characters "ab cdefgh" 1 1 :=
  ⟨char_mode_forward_progress.1 0 3 4,
    char_mode_forward_progress.2.1 "ab cdefgh" 1 1 42 (by decide)⟩

/-- Counterexample to C8 as stated: on `"ab cdefgh"` with
`chunk_size = 1, chunk_overlap = 1` (character window 4, overlap 4) the
second chunk ends at 3, yet the third chunk starts at 2, whereas the
claimed formula `max 1 (end - overlap)` would put the next start at 1. -/
theorem char_mode_next_start_counterexample :
    (chunk_with_characters "ab cdefgh" 1 1).map Chunk.span
        = [(0, 3), (1, 3), (2, 6), (3, 7), (4, 8), (5, 9)] ∧
      max 1 (3 - 4) = 1 ∧ (2 : Nat) ≠ max 1 (3 - 4) := by
  refine ⟨by decide, by decide, by decide⟩

/-! ## Theorems about text normalization -/

lemma not_nl_collapseWSAux : ∀ (cs : List Char) (b : Bool), '\n' ∉ collapseWSAux cs b := by
  intro cs
  induction cs with
  | nil => intro b; rw [collapseWSAux]; exact List.not_mem_nil _
  | cons c rest ih =>
    intro b
    rw [collapseWSAux]
    by_cases hsp : pyIsSpace c
    · rw [if_pos hsp]
      cases b with
      | true => simpa using ih true
      | false =>
        simp only [Bool.false_eq_true, if_false]
        intro hmem
        rcases List.mem_cons.1 hmem with h | h
        · exact absurd h (by decide)
        · exact ih true h
    · rw [if_neg hsp]
      intro hmem
      rcases List.mem_cons.1 hmem with h | h
      · rw [← h] at hsp; exact hsp (by decide)
      · exact ih false h

lemma sub2Aux_eq_of_not_mem : ∀ (fuel : Nat) (cs : List Char), '\n' ∉ cs →
    sub2Aux fuel cs = cs := by
  intro fuel
  induction fuel with
  | zero => intro cs _; rfl
  | succ f ih =>
    intro cs h
    cases cs with
    | nil => rfl
    | cons c rest =>
      rw [sub2Aux]
      have hc : ¬(c = '\n') := fun hh => h (hh ▸ List.mem_cons_self c rest)
      rw [if_neg hc, ih rest (fun hm => h (List.mem_cons_of_mem c hm))]

lemma mem_of_mem_pyStrip {s : String} {c : Char} (h : c ∈ (pyStrip s).data) :
    c ∈ s.data := by
  rw [pyStrip] at h
  rw [List.mem_reverse] at h
  have h2 := (List.dropWhile_sublist pyIsSpace).mem h
  rw [List.mem_reverse] at h2
  exact (List.dropWhile_sublist pyIsSpace).mem h2

/-- C7 (amended): the extractor's normalization first collapses every run
of whitespace — newlines included — to a single space, so no newline
survives; the blank-line substitution (3+ blank lines to one) therefore
never fires, the whole normalization equals collapse-then-trim, and the
output never contains a newline, hence never a blank line. -/
theorem normalize_text_collapses_all_whitespace (s : String) :
    normalize_text s = pyStrip ⟨collapseWSAux s.data false⟩ ∧
    '\n' ∉ (normalize_text s).data := by
  have hnl : '\n' ∉ collapseWSAux s.data false := not_nl_collapseWSAux s.data false
  have h1 : normalize_text s = pyStrip ⟨collapseWSAux s.data false⟩ := by
    simp only [normalize_text]
    rw [sub2Aux_eq_of_not_mem _ _ hnl]
  refine ⟨h1, ?_⟩
  rw [h1]
  intro hmem
  exact hnl (mem_of_mem_pyStrip hmem)

/-- Counterexample to C7 as stated: on an input with three consecutive
blank lines the normalization yields `"a b"`, not the `"a\n\nb"` the
claimed blank-line collapsing would produce — the output cannot keep a
blank line. -/
theorem normalize_text_counterexample :
    normalize_text "a\n\n\n\nb" = "a b" ∧ normalize_text "a\n\n\n\nb" ≠ "a\n\nb" :=
  ⟨by decide, by decide⟩

/-! ## Theorems about the embedding retry loop -/

lemma generate_embeddings_loop (call : Nat → List String → Except PyExc (List (List ℚ)))
    (endpoint deployment : String) (delay : ℚ) (texts : List String)
    (hv : texts.filter isValidText ≠ []) :
    generate_embeddings call endpoint deployment delay texts
      = genEmbedsGo call (texts.filter isValidText) max_retries delay endpoint deployment
          3 0 0 0 none := by
  have hne : texts ≠ [] := by intro h; rw [h] at hv; exact hv rfl
  simp only [generate_embeddings]
  rw [if_neg (fun hc => hne (List.isEmpty_iff.1 hc))]
  rw [if_neg (fun hc => hv (List.isEmpty_iff.1 hc))]
  rfl

lemma genEmbedsGo_success_step (call : Nat → List String → Except PyExc (List (List ℚ)))
    (vt : List String) (maxR : Nat) (delay : ℚ) (endpoint deployment : String)
    (r attempt made : Nat) (slept : ℚ) (lastE : Option PyExc) (es : List (List ℚ))
    (hcall : call attempt vt = .ok es) :
    genEmbedsGo call vt maxR delay endpoint deployment (r + 1) attempt made slept lastE
      = ⟨.ok es, made + 1, slept⟩ := by
  rw [genEmbedsGo, hcall]

lemma genEmbedsGo_fail_step (call : Nat → List String → Except PyExc (List (List ℚ)))
    (vt : List String) (maxR : Nat) (delay : ℚ) (endpoint deployment : String)
    (r attempt made : Nat) (slept : ℚ) (lastE : Option PyExc) (e : PyExc)
    (hcall : call attempt vt = .error e) (hlt : attempt < maxR - 1) :
    genEmbedsGo call vt maxR delay endpoint deployment (r + 1) attempt made slept lastE
      = genEmbedsGo call vt maxR delay endpoint deployment r (attempt + 1) (made + 1)
          (slept + delay * 2 ^ attempt) (some e) := by
  rw [genEmbedsGo, hcall]
  dsimp only
  rw [if_pos hlt]

lemma genEmbedsGo_fail_last (call : Nat → List String → Except PyExc (List (List ℚ)))
    (vt : List String) (maxR : Nat) (delay : ℚ) (endpoint deployment : String)
    (r attempt made : Nat) (slept : ℚ) (lastE : Option PyExc) (e : PyExc)
    (hcall : call attempt vt = .error e) (hge : ¬(attempt < maxR - 1)) :
    genEmbedsGo call vt maxR delay endpoint deployment (r + 1) attempt made slept lastE
      = genEmbedsGo call vt maxR delay endpoint deployment r (attempt + 1) (made + 1)
          slept (some e) := by
  rw [genEmbedsGo, hcall]
  dsimp only
  rw [if_neg hge]

/-- C3: when the remote call fails on attempts 0 and 1 and succeeds on
attempt 2, `generate_embeddings` returns the successful result after
exactly 3 attempts; the sleeps are `delay * 2 ^ 0` and `delay * 2 ^ 1`
(exponential backoff, attempts numbered from 0, no jitter), so the total
waited time equals — in particular is at least — `delay * (1 + 2)`. -/
theorem embed_retry_backoff (call : Nat → List String → Except PyExc (List (List ℚ)))
    (endpoint deployment : String) (delay : ℚ) (texts : List String)
    (es : List (List ℚ)) (e0 e1 : PyExc)
    (hv : texts.filter isValidText ≠ [])
    (h0 : call 0 (texts.filter isValidText) = .error e0)
    (h1 : call 1 (texts.filter isValidText) = .error e1)
    (h2 : call 2 (texts.filter isValidText) = .ok es) :
    (generate_embeddings call endpoint deployment delay texts).result = .ok es ∧
    (generate_embeddings call endpoint deployment delay texts).attempts = 3 ∧
    (generate_embeddings call endpoint deployment delay texts).slept
      = delay * 2 ^ 0 + delay * 2 ^ 1 ∧
    delay * (1 + 2) ≤ (generate_embeddings call endpoint deployment delay texts).slept := by
  have key : generate_embeddings call endpoint deployment delay texts
      = ⟨.ok es, 3, 0 + delay * 2 ^ 0 + delay * 2 ^ 1⟩ := by
    rw [generate_embeddings_loop call endpoint deployment delay texts hv]
    have s1 : genEmbedsGo call (texts.filter isValidText) max_retries delay endpoint
        deployment 3 0 0 0 none
        = genEmbedsGo call (texts.filter isValidText) max_retries delay endpoint
            deployment 2 1 1 (0 + delay * 2 ^ 0) (some e0) :=
      genEmbedsGo_fail_step call _ max_retries delay endpoint deployment 2 0 0 0 none e0
        h0 (by decide)
    have s2 : genEmbedsGo call (texts.filter isValidText) max_retries delay endpoint
        deployment 2 1 1 (0 + delay * 2 ^ 0) (some e0)
        = genEmbedsGo call (texts.filter isValidText) max_retries delay endpoint
            deployment 1 2 2 (0 + delay * 2 ^ 0 + delay * 2 ^ 1) (some e1) :=
      genEmbedsGo_fail_step call _ max_retries delay endpoint deployment 1 1 1
        (0 + delay * 2 ^ 0) (some e0) e1 h1 (by decide)
    have s3 : genEmbedsGo call (texts.filter isValidText) max_retries delay endpoint
        deployment 1 2 2 (0 + delay * 2 ^ 0 + delay * 2 ^ 1) (some e1)
        = ⟨.ok es, 3, 0 + delay * 2 ^ 0 + delay * 2 ^ 1⟩ :=
      genEmbedsGo_success_step call _ max_retries delay endpoint deployment 0 2 2
        (0 + delay * 2 ^ 0 + delay * 2 ^ 1) (some e1) es h2
    rw [s1, s2, s3]
  rw [key]
  refine ⟨rfl, rfl, by ring, ?_⟩
  have : delay * (1 + 2) = 0 + delay * 2 ^ 0 + delay * 2 ^ 1 := by ring
  rw [this]

/-- Witness for C3 with a concrete oracle failing twice then succeeding. -/
theorem embed_retry_backoff_witness :
    ["hi"].filter isValidText ≠ [] ∧
      ((generate_embeddings failTwiceThenOk "ep" "dep" 1 ["hi"]).result = .ok [[1]] ∧
        (generate_embeddings failTwiceThenOk "ep" "dep" 1 ["hi"]).attempts = 3 ∧
        (generate_embeddings failTwiceThenOk "ep" "dep" 1 ["hi"]).slept
          = 1 * 2 ^ 0 + 1 * 2 ^ 1 ∧
        (1 : ℚ) * (1 + 2) ≤ (generate_embeddings failTwiceThenOk "ep" "dep" 1 ["hi"]).slept) :=
  ⟨by decide,
    embed_retry_backoff failTwiceThenOk "ep" "dep" 1 ["hi"] [[1]]
      ⟨"APIError", "boom"⟩ ⟨"APIError", "boom"⟩ (by decide) rfl rfl rfl⟩

/-- C4 (amended): when the remote call fails on all attempts,
`generate_embeddings` raises after exactly 3 attempts; the terminal cause
is classified into one of four categories keyed on the failure message
(connection, 401/unauthorized, 404/not-found, other), and the remediation
hint is embedded in the raised exception's message string — the payload is
that single message string, a plain exception, never the structured
`EmbeddingFailure` with a separate hint field. -/
theorem embed_exhaustion_classified (call : Nat → List String → Except PyExc (List (List ℚ)))
    (endpoint deployment : String) (delay : ℚ) (texts : List String) (e0 e1 e2 : PyExc)
    (hv : texts.filter isValidText ≠ [])
    (h0 : call 0 (texts.filter isValidText) = .error e0)
    (h1 : call 1 (texts.filter isValidText) = .error e1)
    (h2 : call 2 (texts.filter isValidText) = .error e2) :
    (generate_embeddings call endpoint deployment delay texts).attempts = 3 ∧
    (generate_embeddings call endpoint deployment delay texts).result
      = .error (.exceptionMsg ("Failed to generate embeddings after 3 attempts: "
          ++ detailedErrorFor e2 endpoint deployment)) ∧
    (generate_embeddings call endpoint deployment delay texts).raisedStructured = false ∧
    (detailedErrorFor e2 endpoint deployment
        = "Connection error to Azure OpenAI. Endpoint: " ++ endpoint ++ ", Deployment: "
          ++ deployment
          ++ ". Check: 1) Endpoint URL is correct, 2) Network connectivity, 3) Deployment name exists"
      ∨ detailedErrorFor e2 endpoint deployment
        = "Authentication failed. Check: 1) API key is correct, 2) API key has not expired, 3) API key has proper permissions"
      ∨ detailedErrorFor e2 endpoint deployment
        = "Deployment not found: " ++ deployment
          ++ ". Check: 1) Deployment name is correct, 2) Deployment exists in Azure portal, 3) Deployment is active"
      ∨ detailedErrorFor e2 endpoint deployment = e2.ename ++ ": " ++ e2.emsg) := by
  have key : generate_embeddings call endpoint deployment delay texts
      = ⟨.error (.exceptionMsg (terminalMessage max_retries (some e2) endpoint deployment)),
          3, 0 + delay * 2 ^ 0 + delay * 2 ^ 1⟩ := by
    rw [generate_embeddings_loop call endpoint deployment delay texts hv]
    have s1 : genEmbedsGo call (texts.filter isValidText) max_retries delay endpoint
        deployment 3 0 0 0 none
        = genEmbedsGo call (texts.filter isValidText) max_retries delay endpoint
            deployment 2 1 1 (0 + delay * 2 ^ 0) (some e0) :=
      genEmbedsGo_fail_step call _ max_retries delay endpoint deployment 2 0 0 0 none e0
        h0 (by decide)
    have s2 : genEmbedsGo call (texts.filter isValidText) max_retries delay endpoint
        deployment 2 1 1 (0 + delay * 2 ^ 0) (some e0)
        = genEmbedsGo call (texts.filter isValidText) max_retries delay endpoint
            deployment 1 2 2 (0 + delay * 2 ^ 0 + delay * 2 ^ 1) (some e1) :=
      genEmbedsGo_fail_step call _ max_retries delay endpoint deployment 1 1 1
        (0 + delay * 2 ^ 0) (some e0) e1 h1 (by decide)
    have s3 : genEmbedsGo call (texts.filter isValidText) max_retries delay endpoint
        deployment 1 2 2 (0 + delay * 2 ^ 0 + delay * 2 ^ 1) (some e1)
        = genEmbedsGo call (texts.filter isValidText) max_retries delay endpoint
            deployment 0 3 3 (0 + delay * 2 ^ 0 + delay * 2 ^ 1) (some e2) :=
      genEmbedsGo_fail_last call _ max_retries delay endpoint deployment 0 2 2
        (0 + delay * 2 ^ 0 + delay * 2 ^ 1) (some e1) e2 h2 (by decide)
    rw [s1, s2, s3]
    rfl
  rw [key]
  refine ⟨rfl, rfl, rfl, ?_⟩
  rw [detailedErrorFor]
  split_ifs with hA hB hC
  · exact Or.inl rfl
  · exact Or.inr (Or.inl rfl)
  · exact Or.inr (Or.inr (Or.inl rfl))
  · exact Or.inr (Or.inr (Or.inr rfl))

/-- Witness for C4 (amended) with a concrete always-failing oracle. -/
theorem embed_exhaustion_classified_witness :
    ["hello"].filter isValidText ≠ [] ∧
      ((generate_embeddings alwaysConnectionError "https://r.openai.azure.com" "embed-dep" 1
          ["hello"]).attempts = 3 ∧
        (generate_embeddings alwaysConnectionError "https://r.openai.azure.com" "embed-dep" 1
          ["hello"]).raisedStructured = false) :=
  ⟨by decide,
    let h := embed_exhaustion_classified alwaysConnectionError "https://r.openai.azure.com"
      "embed-dep" 1 ["hello"] ⟨"APIConnectionError", "Connection error."⟩
      ⟨"APIConnectionError", "Connection error."⟩ ⟨"APIConnectionError", "Connection error."⟩
      (by decide) rfl rfl rfl
    ⟨h.1, h.2.2.1⟩⟩

/-- Counterexample to C4 as stated: on a connection failure exhausting all
attempts the raised error is the builtin exception whose payload is one
message string with the remediation hint embedded in it; it is not a
structured payload carrying the hint as a separate field. -/
theorem embedding_failure_payload_counterexample :
    (generate_embeddings alwaysConnectionError "https://r.openai.azure.com" "embed-dep" 1
        ["hello"]).attempts = 3 ∧
      (generate_embeddings alwaysConnectionError "https://r.openai.azure.com" "embed-dep" 1
        ["hello"]).raisedStructured = false ∧
      (generate_embeddings alwaysConnectionError "https://r.openai.azure.com" "embed-dep" 1
        ["hello"]).result
        = .error (.exceptionMsg ("Failed to generate embeddings after 3 attempts: "
            ++ "Connection error to Azure OpenAI. Endpoint: https://r.openai.azure.com, "
            ++ "Deployment: embed-dep. Check: 1) Endpoint URL is correct, "
            ++ "2) Network connectivity, 3) Deployment name exists")) :=
  ⟨rfl, rfl, rfl⟩

/-! ## Theorems about the retrieval pipeline -/

/-- C5: whenever the index search returns an empty result list, `query`
returns the fixed no-documents refusal with `sources = []` and the question
echoed back, and the answer-generation step is never invoked. -/
theorem rag_no_results_refusal (embed : String → List ℚ)
    (search : List ℚ → Int → List SearchResult) (generate : String → String → String)
    (default_top_k : Int) (question : String) (top_k : Option Int)
    (h : search (embed question) (pyOrInt top_k default_top_k) = []) :
    RAGquery embed search generate default_top_k question top_k
      = ⟨no_documents_answer, [], question, false⟩ := by
  simp only [RAGquery]
  rw [h]
  rfl

/-- Witness for C5 over an empty index. -/
theorem rag_no_results_refusal_witness :
    searchStubEmpty (embedStub "What?") (pyOrInt none 5) = [] ∧
      RAGquery embedStub searchStubEmpty generateStub 5 "What?" none
        = ⟨no_documents_answer, [], "What?", false⟩ :=
  ⟨rfl, rag_no_results_refusal embedStub searchStubEmpty generateStub 5 "What?" none rfl⟩

/-- C6: for a non-empty search result list, the `sources` of the returned
answer are exactly the formatted search results — one per result, in the
same rank order — and the `i`-th source carries the content, provenance and
similarity score of the `i`-th search result. -/
theorem rag_sources_aligned (embed : String → List ℚ)
    (search : List ℚ → Int → List SearchResult) (generate : String → String → String)
    (default_top_k : Int) (question : String) (top_k : Option Int)
    (h : search (embed question) (pyOrInt top_k default_top_k) ≠ []) :
    (RAGquery embed search generate default_top_k question top_k).sources
        = format_sources (search (embed question) (pyOrInt top_k default_top_k)) ∧
    (RAGquery embed search generate default_top_k question top_k).sources.length
        = (search (embed question) (pyOrInt top_k default_top_k)).length ∧
    ∀ i (hi : i < (RAGquery embed search generate default_top_k question top_k).sources.length)
      (hi2 : i < (search (embed question) (pyOrInt top_k default_top_k)).length),
      (RAGquery embed search generate default_top_k question top_k).sources[i].content
          = (search (embed question) (pyOrInt top_k default_top_k))[i].content ∧
      (RAGquery embed search generate default_top_k question top_k).sources[i].file_id
          = (search (embed question) (pyOrInt top_k default_top_k))[i].file_id ∧
      (RAGquery embed search generate default_top_k question top_k).sources[i].filename
          = (search (embed question) (pyOrInt top_k default_top_k))[i].filename ∧
      (RAGquery embed search generate default_top_k question top_k).sources[i].chunk_index
          = (search (embed question) (pyOrInt top_k default_top_k))[i].chunk_index ∧
      (RAGquery embed search generate default_top_k question top_k).sources[i].score
          = (search (embed question) (pyOrInt top_k default_top_k))[i].score := by
  have hs : (RAGquery embed search generate default_top_k question top_k).sources
      = format_sources (search (embed question) (pyOrInt top_k default_top_k)) := by
    simp only [RAGquery]
    rw [if_neg (fun hc => h (List.isEmpty_iff.1 hc))]
  refine ⟨hs, ?_, ?_⟩
  · rw [hs, format_sources, List.length_map]
  · intro i hi hi2
    simp [hs, format_sources, List.getElem_map]

/-- Witness for C6 with two ranked results. -/
theorem rag_sources_aligned_witness :
    searchStubTwo (embedStub "q") (pyOrInt none 5) ≠ [] ∧
      (RAGquery embedStub searchStubTwo generateStub 5 "q" none).sources
        = format_sources (searchStubTwo (embedStub "q") (pyOrInt none 5)) :=
  ⟨by decide, (rag_sources_aligned embedStub searchStubTwo generateStub 5 "q" none
    (by decide)).1⟩

/-- C10: supplying `top_k = 0` to `query` behaves exactly as supplying no
`top_k` at all: the falsy coercion `top_k or default` substitutes the
configured default before the index is queried. -/
theorem top_k_zero_defaults (embed : String → List ℚ)
    (search : List ℚ → Int → List SearchResult) (generate : String → String → String)
    (default_top_k : Int) (question : String) :
    RAGquery embed search generate default_top_k question (some 0)
      = RAGquery embed search generate default_top_k question none := rfl

/-- C9 (amended): `top_k` is optional; request validation enforces no
positivity on it (acceptance does not depend on its value), a missing
`top_k` falls back to the configured default, a supplied `0` is silently
replaced by the default via the falsy coercion, and every nonzero supplied
value — negative values included — is passed on unchanged. -/
theorem top_k_validation_amended (question : String) (default_top_k : Int) :
    (∀ t : Option Int, chatRequestValid question t = chatRequestValid question none) ∧
    pyOrInt none default_top_k = default_top_k ∧
    pyOrInt (some 0) default_top_k = default_top_k ∧
    (∀ k : Int, k ≠ 0 → pyOrInt (some k) default_top_k = k) := by
  refine ⟨fun t => rfl, rfl, rfl, fun k hk => ?_⟩
  rw [pyOrInt]
  exact if_neg hk

/-- Witness for C9 (amended) at `top_k = -7`. -/
theorem top_k_validation_amended_witness :
    chatRequestValid "q" (some (-7)) = chatRequestValid "q" none ∧
      pyOrInt (some (-7)) 5 = -7 :=
  ⟨(top_k_validation_amended "q" 5).1 (some (-7)),
    (top_k_validation_amended "q" 5).2.2.2 (-7) (by decide)⟩

/-- Counterexample to C9 as stated: a request with `top_k = -3` passes the
request validation, and the Retriever hands `-3` to the index query
verbatim (the recorder oracle sees it), so a negative `top_k` is accepted
as-is rather than rejected. -/
theorem top_k_negative_counterexample :
    chatRequestValid "q" (some (-3)) = true ∧
      pyOrInt (some (-3)) 5 = -3 ∧
      ¬((0 : Int) < -3) ∧
      (RAGquery embedStub searchStubRecorder generateStub 5 "q" (some (-3))).sources
        = [⟨"content", "file-1", "-3", 0, none⟩] :=
  ⟨by decide, by decide, by decide, by decide⟩

end RagSpec
